import Mathlib

/-!
Shallow embedding of the `nbhd` community-detection pipeline
(`src/nbhd/communities.py`, plus the `FaceBlock` class of
`src/nbhd/geography.py`), together with theorems settling the
specification claims about it.

Machine reals used for distances and lengths are modelled as rationals;
WKB geometry blobs are modelled as opaque `Nat` tokens, with the length
of a road geometry carried in a separate field.
-/

namespace Nbhd

/-! ## Definitions -/

/-! ### Proximity graph and connected components

`get_nearest_nodes_translator` builds an undirected `networkx` graph from
the distance-filtered node-pair list and maps every node of the graph to
the minimum id of its connected component
(`{n: list(sorted(g.nodes))[0] for g in subgraphs for n in g.nodes}`).
We embed the graph as an edge list; components are computed by a
saturation loop whose soundness and completeness with respect to
path-reachability are proved below. -/

def nodesOf (E : List (Nat × Nat)) : List Nat :=
  (E.map Prod.fst ++ E.map Prod.snd).dedup

def adjB (E : List (Nat × Nat)) (a b : Nat) : Bool :=
  E.any (fun p => (p.1 == a && p.2 == b) || (p.1 == b && p.2 == a))

def Adj (E : List (Nat × Nat)) (a b : Nat) : Prop :=
  adjB E a b = true

instance (E : List (Nat × Nat)) (a b : Nat) : Decidable (Adj E a b) := by
  unfold Adj; infer_instance

/-- Path-reachability in the undirected graph with edge list `E`. -/
def Reaches (E : List (Nat × Nat)) : Nat → Nat → Prop :=
  Relation.ReflTransGen (Adj E)

def step (E : List (Nat × Nat)) (s : List Nat) : List Nat :=
  s ++ (nodesOf E).filter (fun b => decide (b ∉ s) && s.any (fun a => adjB E a b))

/-- The connected component of `a` (as a list), computed by saturation. -/
def comp (E : List (Nat × Nat)) (a : Nat) : List Nat :=
  (step E)^[(nodesOf E).length + 1] [a]

def listMin : List Nat → Nat
  | [] => 0
  | x :: xs => xs.foldl min x

/-- The canonical representative: minimum id of the component, with
identity as the default for ids outside the graph (`translator.get(x, x)`). -/
def canonical (E : List (Nat × Nat)) (x : Nat) : Nat :=
  listMin (comp E x)

/-! ### The node snapping translator

`get_nearest_nodes_translator` receives a self-knn table of nodes
(pairs of node ids with their distance), keeps the pairs at distance
strictly below `max_node_distance`, and maps every node of the resulting
graph to the minimum id of its connected component.
`snap_together_nearby_nodes` then applies `translator.get(x, x)` to the
`startNode` and `endNode` columns. -/

def snapEdges (pairs : List (Nat × Nat × ℚ)) (thr : ℚ) : List (Nat × Nat) :=
  (pairs.filter (fun p => decide (p.2.2 < thr))).map (fun p => (p.1, p.2.1))

def translatorGet (pairs : List (Nat × Nat × ℚ)) (thr : ℚ) (x : Nat) : Nat :=
  canonical (snapEdges pairs thr) x

/-! ### Street records

A row of the `streets` table as it stands when `snap_together_nearby_nodes`
and `label_connected_communities` run: road id, opaque geometry token,
endpoint node ids and the derived columns. -/

structure StreetRec where
  roads_id : Nat
  geometry : Nat
  startNode : Nat
  endNode : Nat
  number_of_properties : Nat
  residential : Bool
  short : Bool
  short_or_residential : Bool
deriving DecidableEq

/-- `snap_together_nearby_nodes`: rewrite the `startNode` and `endNode`
columns through `translator.get(x, x)`, leaving every other column and the
row set untouched. -/
def snapTogetherNearbyNodes (pairs : List (Nat × Nat × ℚ)) (thr : ℚ)
    (streets : List StreetRec) : List StreetRec :=
  streets.map (fun s =>
    { s with startNode := translatorGet pairs thr s.startNode,
             endNode := translatorGet pairs thr s.endNode })

/-! ### Community labelling (`label_connected_communities`)

The code filters to `short_or_residential` rows and feeds them to
`nx.from_pandas_edgelist(streets_df, "startNode", "endNode", True)`.
That builds a *simple* `nx.Graph`: rows are added in order with
`add_edge(u, v, **attrs)`, so rows whose unordered endpoint pair repeats
collapse into one edge whose `roads_id` attribute is the attribute of the
*last* such row.  `communities_key` therefore contains exactly the
`roads_id`s of those last-per-pair representative rows; every other street
gets `community = None`.

We embed: the representative of an endpoint pair is the last qualifying
row with that pair (`lastWithPair`), and a street id is labelled iff it is
the id of a representative row.  Community labels carry no structure in
the claims beyond identity and nullity, so we label a representative row
by the canonical (minimum) node of its connected component in the street
graph — a bijective relabelling of the code's sequential string labels,
since distinct components have distinct minimum nodes. -/

def qualifying (l : List StreetRec) : List StreetRec :=
  l.filter (fun s => s.short_or_residential)

def samePairB (s t : StreetRec) : Bool :=
  (s.startNode == t.startNode && s.endNode == t.endNode) ||
  (s.startNode == t.endNode && s.endNode == t.startNode)

def lastWithPair (q : List StreetRec) (s : StreetRec) : Option StreetRec :=
  (q.filter (fun t => samePairB s t)).getLast?

def isRep (q : List StreetRec) (r : StreetRec) : Bool :=
  decide (lastWithPair q r = some r)

def streetEdges (l : List StreetRec) : List (Nat × Nat) :=
  (qualifying l).map (fun s => (s.startNode, s.endNode))

/-- `communities_key.get(street_id, None)`, with component-minimum labels. -/
def communityOf (l : List StreetRec) (id : Nat) : Option Nat :=
  ((qualifying l).find? (fun r => isRep (qualifying l) r && r.roads_id == id)).map
    (fun r => canonical (streetEdges l) r.startNode)

/-! ### Aggregation of community sizes (`get_communities`, lines 79–86)

`community_size_dict = dict(streets.community.value_counts())` counts the
rows per non-null label; `.get(x, 0)` then maps a null label (and any
label carried by no street row) to `0`. -/

def labelCommunities (l : List StreetRec) : List (StreetRec × Option Nat) :=
  l.map (fun s => (s, communityOf l s.roads_id))

def countLabelRows (labeled : List (StreetRec × Option Nat)) (L : Nat) : Nat :=
  (labeled.filter (fun sc => sc.2 == some L)).length

def communitySizeVal (labeled : List (StreetRec × Option Nat)) : Option Nat → Nat
  | none => 0
  | some L => countLabelRows labeled L

def streetsWithSizes (l : List StreetRec) : List (StreetRec × Option Nat × Nat) :=
  (labelCommunities l).map
    (fun sc => (sc.1, sc.2, communitySizeVal (labelCommunities l) sc.2))

/-! ### Classifier (`get_residential_streets_and_properties`)

A property is residential iff its id occurs among the properties whose
distance to their nearest building is zero (the building classifier of
`mark_residential_buildings` marks *every* building residential).  The
per-street property count is taken over the *residential* properties
only, and the returned properties table is the residential slice
(`residential_properties_df`). -/

structure PropOnStreet where
  properties_id : Nat
  roads_id : Nat
  startNode : Nat
  endNode : Nat
  roads_geometry : Nat
  roads_length : ℚ
deriving DecidableEq

structure PropBuilding where
  properties_id : Nat
  dist : ℚ
deriving DecidableEq

def residentialPropIds (pb : List PropBuilding) : List Nat :=
  (pb.filter (fun r => decide (r.dist = 0))).map (fun r => r.properties_id)

def isResidentialProp (pb : List PropBuilding) (p : PropOnStreet) : Bool :=
  decide (p.properties_id ∈ residentialPropIds pb)

def residentialProps (ps : List PropOnStreet) (pb : List PropBuilding) :
    List PropOnStreet :=
  ps.filter (fun p => isResidentialProp pb p)

/-- `property_counts_dict.get(roads_id, 0)`: the number of *residential*
properties whose nearest street is `rid`. -/
def propCount (ps : List PropOnStreet) (pb : List PropBuilding) (rid : Nat) : Nat :=
  ((residentialProps ps pb).filter (fun p => p.roads_id == rid)).length

/-- Definition following the claim wording (not the code): the number of
*all* input properties whose nearest street is `rid`. -/
def countAllPropsOnStreet (ps : List PropOnStreet) (rid : Nat) : Nat :=
  (ps.filter (fun p => p.roads_id == rid)).length

/-- `~properties_on_streets_df.roads_geometry.duplicated()`: keep the first
row for each distinct road geometry. -/
def dedupByGeomAux : List Nat → List PropOnStreet → List PropOnStreet
  | _, [] => []
  | seen, p :: rest =>
    if p.roads_geometry ∈ seen then dedupByGeomAux seen rest
    else p :: dedupByGeomAux (p.roads_geometry :: seen) rest

def streetRows (ps : List PropOnStreet) : List PropOnStreet :=
  dedupByGeomAux [] ps

/-- `length / number_of_properties < threshold` with pandas float
semantics: a zero count produces `inf` (or `NaN`), which compares `False`
against any finite threshold. -/
def isResidentialStreet (thr len : ℚ) (count : Nat) : Bool :=
  if count = 0 then false else decide (len / (count : ℚ) < thr)

structure StreetOut where
  roads_id : Nat
  startNode : Nat
  endNode : Nat
  roads_geometry : Nat
  length : ℚ
  number_of_properties : Nat
  residential : Bool
deriving DecidableEq

def getResidentialStreets (thr : ℚ) (ps : List PropOnStreet)
    (pb : List PropBuilding) : List StreetOut :=
  (streetRows ps).map (fun s =>
    { roads_id := s.roads_id, startNode := s.startNode, endNode := s.endNode,
      roads_geometry := s.roads_geometry, length := s.roads_length,
      number_of_properties := propCount ps pb s.roads_id,
      residential := isResidentialStreet thr s.roads_length (propCount ps pb s.roads_id) })

/-- The properties table returned by `get_residential_streets_and_properties`
is the residential slice only. -/
def getResidentialProperties (ps : List PropOnStreet) (pb : List PropBuilding) :
    List PropOnStreet :=
  residentialProps ps pb

/-- `streets["short"] = streets.geometry.length < short_threshold`. -/
def shortB (shortThr len : ℚ) : Bool :=
  decide (len < shortThr)

/-- `streets["short_or_residential"] = streets.residential | streets.short`. -/
def shortOrResidentialOut (shortThr : ℚ) (s : StreetOut) : Bool :=
  s.residential || shortB shortThr s.length

/-- A row of `db.intersects("roads", polygon)`. -/
structure Road where
  id : Nat
  geometry : Nat
  startNode : Nat
  endNode : Nat
deriving DecidableEq

/-- Road ids present in the concatenated streets table of
`get_communities` (`pd.concat([all_streets.rename(...), residential_streets])`):
every row of `all_streets` and every derived residential-street row. -/
def getCommunitiesStreetIds (allStreets : List Road) (thr : ℚ)
    (ps : List PropOnStreet) (pb : List PropBuilding) : List Nat :=
  allStreets.map (fun r => r.id) ++
    (getResidentialStreets thr ps pb).map (fun s => s.roads_id)

/-- Properties table rows paired with their community label and
`faceblock_community_size` (`get_communities`, lines 84–86). -/
def propsWithSizes (l : List StreetRec) (props : List PropOnStreet) :
    List (PropOnStreet × Option Nat × Nat) :=
  props.map (fun p => (p, communityOf l p.roads_id,
    communitySizeVal (labelCommunities l) (communityOf l p.roads_id)))

/-! ### FaceBlock (`geography.py`, `FaceBlock.__init__`)

`self.df = total_df.loc[total_df.roads_id == roads_id]`, then
`self.roads_df = self.df[~self.df.roads_id.duplicated()]` and
`assert len(self.roads_df.roads_id.unique() == 1)` — the assert fails
exactly when the slice is empty (the comparison array has one entry per
distinct matching id, and `len` of it is falsy only at zero). -/

structure FBRow where
  properties_id : Nat
  buildings_id : Nat
  roads_id : Nat
  startNode : Nat
  endNode : Nat
deriving DecidableEq

def fbSlice (df : List FBRow) (rid : Nat) : List FBRow :=
  df.filter (fun r => r.roads_id == rid)

/-- The distinct road ids matching the target id. -/
def fbUniqueIds (df : List FBRow) (rid : Nat) : List Nat :=
  ((fbSlice df rid).map (fun r => r.roads_id)).dedup

structure FaceBlockRec where
  id : Nat
  startNode : Nat
  endNode : Nat
  startNeighbours : List Nat
  endNeighbours : List Nat
deriving DecidableEq

def fbNeighbours (df : List FBRow) (rid node : Nat) : List Nat :=
  ((df.filter (fun r => r.startNode == node && !(r.roads_id == rid))).map
    (fun r => r.roads_id)).dedup ++
  ((df.filter (fun r => r.endNode == node && !(r.roads_id == rid))).map
    (fun r => r.roads_id)).dedup

def faceBlockInit (df : List FBRow) (rid : Nat) : Except String FaceBlockRec :=
  match fbSlice df rid with
  | [] => Except.error "DataIntegrityError"
  | first :: _ =>
    Except.ok
      { id := rid, startNode := first.startNode, endNode := first.endNode,
        startNeighbours := fbNeighbours df rid first.startNode,
        endNeighbours := fbNeighbours df rid first.endNode }

def isOkE (e : Except String FaceBlockRec) : Bool :=
  match e with
  | Except.ok _ => true
  | Except.error _ => false

/-! ### Concrete inputs used by witnesses and counterexamples -/

def pairsW : List (Nat × Nat × ℚ) := [(1, 2, 0), (2, 3, 0), (7, 8, 9)]

def sC1a : StreetRec := ⟨1, 11, 10, 20, 3, true, false, true⟩

def sC1b : StreetRec := ⟨2, 12, 10, 20, 3, true, false, true⟩

def cexC1 : List StreetRec := [sC1a, sC1b]

def wC1a : StreetRec := ⟨1, 11, 10, 20, 0, true, false, true⟩

def wC1b : StreetRec := ⟨2, 12, 30, 40, 0, false, false, false⟩

def wlC1 : List StreetRec := [wC1a, wC1b]

def sC2a : StreetRec := ⟨3, 13, 50, 60, 1, true, false, true⟩

def sC2b : StreetRec := ⟨4, 14, 50, 60, 1, true, false, true⟩

def cexC2 : List StreetRec := [sC2a, sC2b]

def rC3 : Road := ⟨7, 51, 100, 200⟩

def roadsC3 : List Road := [rC3]

def pC3 : PropOnStreet := ⟨1, 7, 100, 200, 51, 40⟩

def psC3 : List PropOnStreet := [pC3]

def pbC3 : List PropBuilding := [⟨1, 1⟩]

def pC4 : PropOnStreet := ⟨2, 8, 101, 201, 52, 40⟩

def psC4 : List PropOnStreet := [pC4]

def pbC4 : List PropBuilding := [⟨2, 1⟩]

def s8 : StreetOut := ⟨8, 101, 201, 52, 40, 0, false⟩

def pC9 : PropOnStreet := ⟨3, 9, 102, 202, 53, 5⟩

def psC9 : List PropOnStreet := [pC9]

def pbC9 : List PropBuilding := [⟨3, 2⟩]

def s9 : StreetOut := ⟨9, 102, 202, 53, 5, 0, false⟩

def dfC5 : List FBRow := [⟨1, 21, 7, 100, 200⟩]

def w8s : StreetRec := ⟨5, 15, 70, 80, 2, true, false, true⟩

def wlC8 : List StreetRec := [w8s]

def w8p : PropOnStreet := ⟨1, 5, 70, 80, 15, 20⟩

def propsC8 : List PropOnStreet := [w8p]

def x8 : StreetRec × Option Nat × Nat := (w8s, some 70, 1)

def y8 : PropOnStreet × Option Nat × Nat := (w8p, some 70, 1)

/-! ## Theorems -/

/-! ### Component saturation: soundness, completeness, minima -/

theorem adj_symm {E : List (Nat × Nat)} {a b : Nat} (h : Adj E a b) : Adj E b a := by
  simp only [Adj, adjB, List.any_eq_true, Bool.or_eq_true] at h ⊢
  obtain ⟨p, hp, h1⟩ := h
  exact ⟨p, hp, h1.symm⟩

theorem adj_mem_left {E : List (Nat × Nat)} {a b : Nat} (h : Adj E a b) :
    a ∈ nodesOf E := by
  simp only [Adj, adjB, List.any_eq_true, Bool.or_eq_true, Bool.and_eq_true,
    beq_iff_eq] at h
  obtain ⟨p, hp, h1 | h1⟩ := h
  · exact List.mem_dedup.mpr (List.mem_append_left _ (List.mem_map.mpr ⟨p, hp, h1.1⟩))
  · exact List.mem_dedup.mpr (List.mem_append_right _ (List.mem_map.mpr ⟨p, hp, h1.2⟩))

theorem adj_mem_right {E : List (Nat × Nat)} {a b : Nat} (h : Adj E a b) :
    b ∈ nodesOf E :=
  adj_mem_left (adj_symm h)

theorem mem_step {E : List (Nat × Nat)} {s : List Nat} {x : Nat} (h : x ∈ s) :
    x ∈ step E s :=
  List.mem_append_left _ h

theorem mem_iterStep_self (E : List (Nat × Nat)) (a : Nat) :
    ∀ n, a ∈ (step E)^[n] [a] := by
  intro n
  induction n with
  | zero => rw [Function.iterate_zero_apply]; exact List.mem_singleton.mpr rfl
  | succ n ih =>
    rw [Function.iterate_succ_apply']
    exact mem_step ih

theorem reaches_of_mem_iterStep (E : List (Nat × Nat)) (a : Nat) :
    ∀ n x, x ∈ (step E)^[n] [a] → Reaches E a x := by
  intro n
  induction n with
  | zero =>
    intro x hx
    rw [Function.iterate_zero_apply, List.mem_singleton] at hx
    exact hx ▸ Relation.ReflTransGen.refl
  | succ n ih =>
    intro x hx
    rw [Function.iterate_succ_apply', step, List.mem_append] at hx
    rcases hx with hx | hx
    · exact ih x hx
    · rw [List.mem_filter, Bool.and_eq_true, List.any_eq_true] at hx
      obtain ⟨-, -, c, hc, hadj⟩ := hx
      exact Relation.ReflTransGen.tail (ih c hc) hadj

theorem nodup_iterStep (E : List (Nat × Nat)) (a : Nat) :
    ∀ n, ((step E)^[n] [a]).Nodup := by
  intro n
  induction n with
  | zero => rw [Function.iterate_zero_apply]; exact List.nodup_singleton a
  | succ n ih =>
    rw [Function.iterate_succ_apply', step]
    refine List.Nodup.append ih (List.Nodup.filter _ (List.nodup_dedup _)) ?_
    intro x hx hx2
    simp only [List.mem_filter, Bool.and_eq_true, decide_eq_true_eq] at hx2
    exact hx2.2.1 hx

theorem iterStep_subset (E : List (Nat × Nat)) (a : Nat) :
    ∀ n, (step E)^[n] [a] ⊆ a :: nodesOf E := by
  intro n
  induction n with
  | zero =>
    rw [Function.iterate_zero_apply]
    intro x hx
    rw [List.mem_singleton] at hx
    exact hx ▸ List.mem_cons_self a _
  | succ n ih =>
    rw [Function.iterate_succ_apply', step]
    intro x hx
    rw [List.mem_append] at hx
    rcases hx with hx | hx
    · exact ih hx
    · exact List.mem_cons_of_mem a (List.mem_filter.mp hx).1

theorem step_grow {E : List (Nat × Nat)} {s : List Nat} (h : step E s ≠ s) :
    s.length + 1 ≤ (step E s).length := by
  rw [step] at h ⊢
  rcases eq_or_ne ((nodesOf E).filter
      (fun b => decide (b ∉ s) && s.any (fun a => adjB E a b))) [] with ht | ht
  · rw [ht, List.append_nil] at h
    exact absurd rfl h
  · have hl : 0 < ((nodesOf E).filter
        (fun b => decide (b ∉ s) && s.any (fun a => adjB E a b))).length :=
      List.length_pos.mpr ht
    rw [List.length_append]
    omega

theorem stepFix_or_length (E : List (Nat × Nat)) (a : Nat) :
    ∀ n, step E ((step E)^[n] [a]) = (step E)^[n] [a] ∨
      n + 1 ≤ ((step E)^[n] [a]).length := by
  intro n
  induction n with
  | zero =>
    right
    rw [Function.iterate_zero_apply]
    simp
  | succ n ih =>
    by_cases hf : step E ((step E)^[n] [a]) = (step E)^[n] [a]
    · left
      rw [Function.iterate_succ_apply', hf]
      exact hf
    · rcases ih with hfix | hlen
      · exact absurd hfix hf
      · right
        rw [Function.iterate_succ_apply']
        have := step_grow hf
        omega

theorem iterStep_length_le (E : List (Nat × Nat)) (a : Nat) (n : Nat) :
    ((step E)^[n] [a]).length ≤ (nodesOf E).length + 1 := by
  have h := List.Subperm.length_le
    (List.subperm_of_subset (nodup_iterStep E a n) (iterStep_subset E a n))
  simpa using h

theorem step_comp_fix (E : List (Nat × Nat)) (a : Nat) :
    step E (comp E a) = comp E a := by
  simp only [comp]
  rcases stepFix_or_length E a ((nodesOf E).length + 1) with h | h
  · exact h
  · have := iterStep_length_le E a ((nodesOf E).length + 1)
    omega

theorem step_filter_nil (E : List (Nat × Nat)) (a : Nat) :
    (nodesOf E).filter
      (fun b => decide (b ∉ comp E a) && (comp E a).any (fun c => adjB E c b)) = [] := by
  have hfix := step_comp_fix E a
  rw [step] at hfix
  have h2 : comp E a ++ (nodesOf E).filter
      (fun b => decide (b ∉ comp E a) && (comp E a).any (fun c => adjB E c b)) =
      comp E a ++ [] := by
    rw [List.append_nil]
    exact hfix
  exact List.append_cancel_left h2

theorem mem_comp_of_adj {E : List (Nat × Nat)} {a b c : Nat}
    (hc : c ∈ comp E a) (hadj : Adj E c b) : b ∈ comp E a := by
  by_contra hb
  have h := List.filter_eq_nil_iff.mp (step_filter_nil E a) b (adj_mem_right hadj)
  simp only [Bool.and_eq_true, decide_eq_true_eq, List.any_eq_true, not_and] at h
  exact (h hb) ⟨c, hc, hadj⟩

theorem mem_comp_self (E : List (Nat × Nat)) (a : Nat) : a ∈ comp E a :=
  mem_iterStep_self E a _

theorem mem_comp_of_reaches {E : List (Nat × Nat)} {a x : Nat}
    (h : Reaches E a x) : x ∈ comp E a := by
  induction h with
  | refl => exact mem_comp_self E a
  | tail hab hadj ih => exact mem_comp_of_adj ih hadj

theorem mem_comp_iff {E : List (Nat × Nat)} {a x : Nat} :
    x ∈ comp E a ↔ Reaches E a x :=
  ⟨reaches_of_mem_iterStep E a _ x, mem_comp_of_reaches⟩

theorem reaches_symm {E : List (Nat × Nat)} {a b : Nat} (h : Reaches E a b) :
    Reaches E b a :=
  (Relation.ReflTransGen.symmetric (fun _ _ h2 => adj_symm h2)) h

theorem foldl_min_le_init : ∀ (xs : List Nat) (x : Nat), xs.foldl min x ≤ x := by
  intro xs
  induction xs with
  | nil => intro x; exact le_refl x
  | cons z zs ih =>
    intro x
    rw [List.foldl_cons]
    calc zs.foldl min (min x z) ≤ min x z := ih (min x z)
    _ ≤ x := min_le_left x z

theorem foldl_min_le_mem :
    ∀ (xs : List Nat) (x y : Nat), y ∈ xs → xs.foldl min x ≤ y := by
  intro xs
  induction xs with
  | nil => intro x y hy; cases hy
  | cons z zs ih =>
    intro x y hy
    rw [List.foldl_cons]
    rcases List.mem_cons.mp hy with rfl | hy
    · calc zs.foldl min (min x y) ≤ min x y := foldl_min_le_init zs (min x y)
      _ ≤ y := min_le_right x y
    · exact ih (min x z) y hy

theorem foldl_min_mem :
    ∀ (xs : List Nat) (x : Nat), xs.foldl min x = x ∨ xs.foldl min x ∈ xs := by
  intro xs
  induction xs with
  | nil => intro x; left; rfl
  | cons z zs ih =>
    intro x
    rw [List.foldl_cons]
    rcases ih (min x z) with h | h
    · rcases min_choice x z with h2 | h2
      · left; rw [h, h2]
      · right; rw [h, h2]; exact List.mem_cons_self z zs
    · right; exact List.mem_cons_of_mem z h

theorem listMin_mem {l : List Nat} (h : l ≠ []) : listMin l ∈ l := by
  cases l with
  | nil => exact absurd rfl h
  | cons x xs =>
    simp only [listMin]
    rcases foldl_min_mem xs x with h2 | h2
    · rw [h2]; exact List.mem_cons_self x xs
    · exact List.mem_cons_of_mem x h2

theorem listMin_le {l : List Nat} {y : Nat} (h : y ∈ l) : listMin l ≤ y := by
  cases l with
  | nil => cases h
  | cons x xs =>
    simp only [listMin]
    rcases List.mem_cons.mp h with rfl | h2
    · exact foldl_min_le_init xs y
    · exact foldl_min_le_mem xs x y h2

theorem listMin_congr {l m : List Nat} (h : ∀ z, z ∈ l ↔ z ∈ m)
    (hl : l ≠ []) (hm : m ≠ []) : listMin l = listMin m :=
  le_antisymm (listMin_le ((h (listMin m)).mpr (listMin_mem hm)))
    (listMin_le ((h (listMin l)).mp (listMin_mem hl)))

theorem reaches_canonical (E : List (Nat × Nat)) (x : Nat) :
    Reaches E x (canonical E x) :=
  mem_comp_iff.mp (listMin_mem (List.ne_nil_of_mem (mem_comp_self E x)))

theorem canonical_le {E : List (Nat × Nat)} {x y : Nat} (h : Reaches E x y) :
    canonical E x ≤ y :=
  listMin_le (mem_comp_of_reaches h)

theorem canonical_idem (E : List (Nat × Nat)) (x : Nat) :
    canonical E (canonical E x) = canonical E x := by
  have hr : Reaches E x (canonical E x) := reaches_canonical E x
  have hcongr : ∀ z, z ∈ comp E (canonical E x) ↔ z ∈ comp E x := by
    intro z
    rw [mem_comp_iff, mem_comp_iff]
    constructor
    · intro h; exact Relation.ReflTransGen.trans hr h
    · intro h; exact Relation.ReflTransGen.trans (reaches_symm hr) h
  exact listMin_congr hcongr (List.ne_nil_of_mem (mem_comp_self E _))
    (List.ne_nil_of_mem (mem_comp_self E x))

theorem canonical_eq_reaches {E : List (Nat × Nat)} {a b : Nat}
    (h : canonical E a = canonical E b) : Reaches E a b := by
  refine Relation.ReflTransGen.trans (reaches_canonical E a) ?_
  rw [h]
  exact reaches_symm (reaches_canonical E b)

theorem step_singleton_of_not_mem {E : List (Nat × Nat)} {x : Nat}
    (h : x ∉ nodesOf E) : step E [x] = [x] := by
  rw [step]
  have hnil : (nodesOf E).filter
      (fun b => decide (b ∉ [x]) && [x].any (fun a => adjB E a b)) = [] := by
    refine List.filter_eq_nil_iff.mpr ?_
    intro b hb hcond
    rw [Bool.and_eq_true, List.any_eq_true] at hcond
    obtain ⟨-, c, hc, hadj⟩ := hcond
    rw [List.mem_singleton] at hc
    exact h (hc ▸ adj_mem_left hadj)
  rw [hnil, List.append_nil]

theorem canonical_of_not_mem {E : List (Nat × Nat)} {x : Nat}
    (h : x ∉ nodesOf E) : canonical E x = x := by
  have hc : comp E x = [x] :=
    Function.iterate_fixed (step_singleton_of_not_mem h) ((nodesOf E).length + 1)
  have h2 : listMin (comp E x) = x := by rw [hc]; rfl
  exact h2

/-! ### C6, C7: the snapping translator -/

/-- C6: for every node, the canonical id produced by the snapping translator
is the minimum id among the nodes of its connected component in the proximity
graph whose edges are the node pairs at distance strictly below the snap
threshold (it lies in the component and bounds every member below), and
equal canonical ids imply a connecting path in that graph. -/
theorem C6_canonical_component_min (pairs : List (Nat × Nat × ℚ)) (thr : ℚ) :
    (∀ x : Nat, Reaches (snapEdges pairs thr) x (translatorGet pairs thr x) ∧
      (∀ y : Nat, Reaches (snapEdges pairs thr) x y → translatorGet pairs thr x ≤ y)) ∧
    (∀ a b : Nat, translatorGet pairs thr a = translatorGet pairs thr b →
      Reaches (snapEdges pairs thr) a b) :=
  ⟨fun x => ⟨reaches_canonical _ x, fun _ hy => canonical_le hy⟩,
   fun _ _ h => canonical_eq_reaches h⟩

/-- C6 witness at a concrete proximity table: nodes 1, 2, 3 are joined
(distances 0, below threshold 1), so node 3 is translated into that
component with canonical id bounded by its members, and 3 reaches 1. -/
theorem C6_witness :
    Reaches (snapEdges pairsW 1) 3 (translatorGet pairsW 1 3) ∧
    translatorGet pairsW 1 3 ≤ 2 ∧
    Reaches (snapEdges pairsW 1) 3 1 := by
  have h := C6_canonical_component_min pairsW 1
  have h32 : Reaches (snapEdges pairsW 1) 3 2 :=
    Relation.ReflTransGen.single (by decide)
  exact ⟨(h.1 3).1, (h.1 3).2 2 h32, h.2 3 1 (by decide)⟩

/-- C7: the node translator is idempotent, and any id absent from the
translator mapping (i.e. not a node of the proximity graph) is translated
to itself. -/
theorem C7_translator_idempotent (pairs : List (Nat × Nat × ℚ)) (thr : ℚ) (x : Nat) :
    translatorGet pairs thr (translatorGet pairs thr x) = translatorGet pairs thr x ∧
    (x ∉ nodesOf (snapEdges pairs thr) → translatorGet pairs thr x = x) :=
  ⟨canonical_idem _ x, fun h => canonical_of_not_mem h⟩

/-- C7 witness at a concrete proximity table. -/
theorem C7_witness :
    translatorGet pairsW 1 (translatorGet pairsW 1 2) = translatorGet pairsW 1 2 ∧
    translatorGet pairsW 1 9 = 9 :=
  ⟨(C7_translator_idempotent pairsW 1 2).1,
   (C7_translator_idempotent pairsW 1 9).2 (by decide)⟩

/-! ### C10: snapping is a frame operation -/

/-- C10: snapping changes at most the `startNode`/`endNode` fields of each
street row; all other fields are unchanged and the rows are in one-to-one
order-preserving correspondence (none added or removed — `List.Forall₂`
forces equal lengths). -/
theorem C10_snap_frame (pairs : List (Nat × Nat × ℚ)) (thr : ℚ)
    (streets : List StreetRec) :
    List.Forall₂ (fun s t =>
      t.roads_id = s.roads_id ∧ t.geometry = s.geometry ∧
      t.number_of_properties = s.number_of_properties ∧
      t.residential = s.residential ∧ t.short = s.short ∧
      t.short_or_residential = s.short_or_residential ∧
      t.startNode = translatorGet pairs thr s.startNode ∧
      t.endNode = translatorGet pairs thr s.endNode)
      streets (snapTogetherNearbyNodes pairs thr streets) := by
  induction streets with
  | nil => exact List.Forall₂.nil
  | cons s rest ih =>
    exact List.Forall₂.cons ⟨rfl, rfl, rfl, rfl, rfl, rfl, rfl, rfl⟩ ih

/-! ### C1, C2: community labelling -/

theorem samePairB_refl (s : StreetRec) : samePairB s s = true := by
  simp [samePairB]

theorem samePairB_congr {s t : StreetRec} (h : samePairB s t = true) (x : StreetRec) :
    samePairB s x = samePairB t x := by
  have hiff : samePairB s x = true ↔ samePairB t x = true := by
    simp only [samePairB, Bool.or_eq_true, Bool.and_eq_true, beq_iff_eq] at h ⊢
    rcases h with ⟨h1, h2⟩ | ⟨h1, h2⟩ <;> rw [h1, h2] <;> tauto
  cases hsx : samePairB s x <;> cases htx : samePairB t x <;> simp_all

theorem mem_qualifying {l : List StreetRec} {s : StreetRec} :
    s ∈ qualifying l ↔ s ∈ l ∧ s.short_or_residential = true := by
  simp [qualifying]

theorem nodup_map_inj {α β : Type} {f : α → β} {l : List α} {x y : α}
    (h : (l.map f).Nodup) (hx : x ∈ l) (hy : y ∈ l) (hf : f x = f y) : x = y :=
  List.inj_on_of_nodup_map h hx hy hf

theorem getLast?_of_all_eq {α : Type} (s : α) :
    ∀ (m : List α), m ≠ [] → (∀ x ∈ m, x = s) → m.getLast? = some s := by
  intro m
  induction m with
  | nil => intro h; exact absurd rfl h
  | cons x rest ih =>
    intro _ hall
    cases rest with
    | nil =>
      rw [List.getLast?_singleton, hall x (List.mem_cons_self x [])]
    | cons y t =>
      rw [List.getLast?_cons_cons]
      exact ih (List.cons_ne_nil y t) (fun z hz => hall z (List.mem_cons_of_mem x hz))

theorem lastWithPair_self {l : List StreetRec} {s : StreetRec}
    (hs : s ∈ qualifying l)
    (hpairs : ∀ u ∈ qualifying l, ∀ v ∈ qualifying l, samePairB u v = true → u = v) :
    lastWithPair (qualifying l) s = some s := by
  have hmem : s ∈ (qualifying l).filter (fun t => samePairB s t) :=
    List.mem_filter.mpr ⟨hs, samePairB_refl s⟩
  refine getLast?_of_all_eq s _ (List.ne_nil_of_mem hmem) ?_
  intro x hx
  have hx2 := List.mem_filter.mp hx
  exact (hpairs s hs x hx2.1 hx2.2).symm

/-- C1 (amended): provided road ids are unique and no two qualifying
streets share the same unordered endpoint pair (no parallel edges), every
street with `residential_or_short == true` has a non-null community and
every street with `residential_or_short == false` has a null community.
The unamended claim fails on parallel edges, see the counterexample. -/
theorem C1_partition_amended (l : List StreetRec)
    (hids : (l.map (fun s => s.roads_id)).Nodup)
    (hpairs : ∀ u ∈ qualifying l, ∀ v ∈ qualifying l, samePairB u v = true → u = v) :
    ∀ s ∈ l, (s.short_or_residential = true → communityOf l s.roads_id ≠ none) ∧
      (s.short_or_residential = false → communityOf l s.roads_id = none) := by
  intro s hs
  constructor
  · intro hsor
    have hq : s ∈ qualifying l := mem_qualifying.mpr ⟨hs, hsor⟩
    have hrep : isRep (qualifying l) s = true := by
      simp only [isRep, decide_eq_true_eq]
      exact lastWithPair_self hq hpairs
    simp only [communityOf]
    intro hnone
    rw [Option.map_eq_none'] at hnone
    have hfind := List.find?_eq_none.mp hnone s hq
    exact hfind (by rw [Bool.and_eq_true]; exact ⟨hrep, beq_self_eq_true _⟩)
  · intro hsor
    simp only [communityOf]
    have hnone : (qualifying l).find?
        (fun r => isRep (qualifying l) r && r.roads_id == s.roads_id) = none := by
      rw [List.find?_eq_none]
      intro r hr hcond
      rw [Bool.and_eq_true, beq_iff_eq] at hcond
      have hrl : r ∈ l := (mem_qualifying.mp hr).1
      have hreq : r = s := nodup_map_inj hids hrl hs hcond.2
      have hrs := (mem_qualifying.mp hr).2
      rw [hreq, hsor] at hrs
      exact Bool.false_ne_true hrs
    rw [hnone]
    rfl

/-- C1 counterexample: two qualifying streets (ids 1 and 2) connect the
same endpoint pair (10, 20); street 1 has `residential_or_short = true`
yet receives a null community, because the `nx.Graph` edge keeps only the
last row's `roads_id` attribute. -/
theorem C1_cex :
    sC1a ∈ cexC1 ∧ sC1a.short_or_residential = true ∧
    communityOf cexC1 sC1a.roads_id = none := by
  decide

/-- C1 witness: concrete table with unique ids and distinct endpoint pairs. -/
theorem C1_witness :
    communityOf wlC1 1 ≠ none ∧ communityOf wlC1 2 = none := by
  have h := C1_partition_amended wlC1 (by decide) (by decide)
  exact ⟨(h wC1a (by decide)).1 (by decide), (h wC1b (by decide)).2 (by decide)⟩

/-- C2 (amended): the street graph is a *simple* graph, not a multigraph:
when two distinct qualifying streets connect the same unordered endpoint
pair, they collapse into a single edge whose `roads_id` attribute is that
of the last such row; that last street receives a community label and the
other receives a null community (given unique road ids). -/
theorem C2_last_edge_wins (l : List StreetRec)
    (hids : (l.map (fun s => s.roads_id)).Nodup)
    (s t : StreetRec) (hsq : s ∈ qualifying l) (htq : t ∈ qualifying l)
    (hpair : samePairB s t = true) (hne : s ≠ t)
    (hlast : lastWithPair (qualifying l) t = some t) :
    communityOf l t.roads_id ≠ none ∧ communityOf l s.roads_id = none := by
  constructor
  · have hrep : isRep (qualifying l) t = true := by
      simp only [isRep, decide_eq_true_eq]
      exact hlast
    simp only [communityOf]
    intro hnone
    rw [Option.map_eq_none'] at hnone
    have hfind := List.find?_eq_none.mp hnone t htq
    exact hfind (by rw [Bool.and_eq_true]; exact ⟨hrep, beq_self_eq_true _⟩)
  · simp only [communityOf]
    have hnone : (qualifying l).find?
        (fun r => isRep (qualifying l) r && r.roads_id == s.roads_id) = none := by
      rw [List.find?_eq_none]
      intro r hr hcond
      rw [Bool.and_eq_true, beq_iff_eq] at hcond
      have hreq : r = s :=
        nodup_map_inj hids (mem_qualifying.mp hr).1 (mem_qualifying.mp hsq).1 hcond.2
      have hreps : lastWithPair (qualifying l) s = some s := by
        have h1 := hcond.1
        rw [hreq] at h1
        simp only [isRep, decide_eq_true_eq] at h1
        exact h1
      have hfilter : (qualifying l).filter (fun u => samePairB s u) =
          (qualifying l).filter (fun u => samePairB t u) :=
        List.filter_congr (fun u _ => samePairB_congr hpair u)
      rw [lastWithPair, hfilter] at hreps
      rw [lastWithPair] at hlast
      rw [hlast] at hreps
      exact hne (Option.some.inj hreps).symm
    rw [hnone]
    rfl

/-- C2 counterexample: streets 3 and 4 both qualify and connect the same
snapped endpoint pair (50, 60), but street 3 (the earlier row) receives a
null community — both streets do *not* appear as labelled edges. -/
theorem C2_cex :
    sC2a.short_or_residential = true ∧ sC2b.short_or_residential = true ∧
    samePairB sC2a sC2b = true ∧ sC2a ≠ sC2b ∧
    communityOf cexC2 sC2a.roads_id = none := by
  decide

/-- C2 witness: on the parallel-pair table, the last street (id 4) is
labelled and the earlier one (id 3) is not. -/
theorem C2_witness :
    communityOf cexC2 4 ≠ none ∧ communityOf cexC2 3 = none := by
  have h := C2_last_edge_wins cexC2 (by decide) sC2a sC2b (by decide) (by decide)
    (by decide) (by decide) (by decide)
  exact h

/-! ### C8: size consistency -/

/-- C8: every street row labelled `L` carries `community_size` equal to the
number of street rows labelled `L`; null-community rows carry size 0; and
every property row labelled `L` carries `faceblock_community_size` equal to
that same street count. -/
theorem C8_size_consistency (l : List StreetRec) (props : List PropOnStreet) :
    (∀ x ∈ streetsWithSizes l,
      (∀ L : Nat, x.2.1 = some L → x.2.2 = countLabelRows (labelCommunities l) L) ∧
      (x.2.1 = none → x.2.2 = 0)) ∧
    (∀ y ∈ propsWithSizes l props,
      ∀ L : Nat, y.2.1 = some L → y.2.2 = countLabelRows (labelCommunities l) L) := by
  constructor
  · intro x hx
    rw [streetsWithSizes, List.mem_map] at hx
    obtain ⟨sc, hsc, rfl⟩ := hx
    constructor
    · intro L hL
      show communitySizeVal (labelCommunities l) sc.2 = _
      rw [show sc.2 = some L from hL]
      rfl
    · intro hnone
      show communitySizeVal (labelCommunities l) sc.2 = 0
      rw [show sc.2 = none from hnone]
      rfl
  · intro y hy
    rw [propsWithSizes, List.mem_map] at hy
    obtain ⟨p, hp, rfl⟩ := hy
    intro L hL
    show communitySizeVal (labelCommunities l) (communityOf l p.roads_id) = _
    rw [show communityOf l p.roads_id = some L from hL]
    rfl

/-- C8 witness: one labelled street and one property inheriting its label. -/
theorem C8_witness :
    x8.2.2 = countLabelRows (labelCommunities wlC8) 70 ∧
    y8.2.2 = countLabelRows (labelCommunities wlC8) 70 := by
  have h := C8_size_consistency wlC8 propsC8
  exact ⟨(h.1 x8 (by decide)).1 70 (by decide), h.2 y8 (by decide) 70 (by decide)⟩

/-! ### C3, C4, C9: the classifier -/

/-- C3 (amended): every input road row of `db.intersects("roads", polygon)`
appears in the concatenated streets table, and the returned properties
table consists of exactly the *residential* input property rows —
non-residential property rows are dropped, contrary to the unamended
claim (see the counterexample). -/
theorem C3_rows_amended (allStreets : List Road) (thr : ℚ)
    (ps : List PropOnStreet) (pb : List PropBuilding) :
    (∀ r ∈ allStreets, r.id ∈ getCommunitiesStreetIds allStreets thr ps pb) ∧
    (∀ p : PropOnStreet,
      p ∈ getResidentialProperties ps pb ↔ p ∈ ps ∧ isResidentialProp pb p = true) := by
  constructor
  · intro r hr
    exact List.mem_append_left _ (List.mem_map.mpr ⟨r, hr, rfl⟩)
  · intro p
    simp [getResidentialProperties, residentialProps, List.mem_filter]

/-- C3 counterexample: a property whose distance to its nearest building is
nonzero is non-residential, and the returned properties table is empty even
though the input table is not — the row is silently dropped. -/
theorem C3_cex :
    psC3 ≠ [] ∧ getResidentialProperties psC3 pbC3 = [] := by
  decide

/-- C3 witness at concrete tables. -/
theorem C3_witness :
    rC3.id ∈ getCommunitiesStreetIds roadsC3 30 psC3 pbC3 ∧
    pC3 ∉ getResidentialProperties psC3 pbC3 := by
  have h := C3_rows_amended roadsC3 30 psC3 pbC3
  refine ⟨h.1 rC3 (by decide), fun hmem => ?_⟩
  have h2 := (h.2 pC3).mp hmem
  have h3 : isResidentialProp pbC3 pC3 = false := by decide
  rw [h3] at h2
  exact Bool.false_ne_true h2.2

/-- C4 (amended): `number_of_properties` counts the *residential*
properties whose nearest street is this one (not all properties, see the
counterexample), and a street is residential iff that count is nonzero and
`length / count < residential_street_threshold` (a zero count yields
`inf`/`NaN` in pandas, which compares false). -/
theorem C4_residential_amended (thr : ℚ) (ps : List PropOnStreet)
    (pb : List PropBuilding) (s : StreetOut)
    (hs : s ∈ getResidentialStreets thr ps pb) :
    s.number_of_properties = propCount ps pb s.roads_id ∧
    (s.residential = true ↔
      propCount ps pb s.roads_id ≠ 0 ∧
        s.length / (propCount ps pb s.roads_id : ℚ) < thr) := by
  rw [getResidentialStreets, List.mem_map] at hs
  obtain ⟨r, hr, rfl⟩ := hs
  refine ⟨rfl, ?_⟩
  show isResidentialStreet thr r.roads_length (propCount ps pb r.roads_id) = true ↔ _
  unfold isResidentialStreet
  by_cases h0 : propCount ps pb r.roads_id = 0
  · rw [if_pos h0]
    simp [h0]
  · rw [if_neg h0]
    simp [h0]

/-- C4 counterexample: one non-residential property nearest to street 8:
the street's `number_of_properties` is 0 while the count of all properties
whose nearest street is street 8 is 1. -/
theorem C4_cex :
    (getResidentialStreets 30 psC4 pbC4).map
      (fun s => (s.roads_id, s.number_of_properties)) = [(8, 0)] ∧
    countAllPropsOnStreet psC4 8 = 1 := by
  decide

/-- C4 witness at concrete tables. -/
theorem C4_witness :
    s8.number_of_properties = propCount psC4 pbC4 s8.roads_id ∧
    (s8.residential = true ↔
      propCount psC4 pbC4 s8.roads_id ≠ 0 ∧
        s8.length / (propCount psC4 pbC4 s8.roads_id : ℚ) < 30) :=
  C4_residential_amended 30 psC4 pbC4 s8 (by decide)

/-- C9: a street with zero associated properties is never residential,
the computation is total (no division-by-zero failure: the embedded
`isResidentialStreet` returns `false` outright on a zero count, as the
pandas `inf`/`NaN` comparison does), and such a street is
`short_or_residential` exactly when it is short (`length < short_threshold`). -/
theorem C9_zero_properties (thr shortThr : ℚ) (ps : List PropOnStreet)
    (pb : List PropBuilding) (s : StreetOut)
    (hs : s ∈ getResidentialStreets thr ps pb)
    (h0 : s.number_of_properties = 0) :
    s.residential = false ∧
    shortOrResidentialOut shortThr s = shortB shortThr s.length ∧
    (shortB shortThr s.length = true → shortOrResidentialOut shortThr s = true) := by
  rw [getResidentialStreets, List.mem_map] at hs
  obtain ⟨r, hr, rfl⟩ := hs
  have hres : isResidentialStreet thr r.roads_length (propCount ps pb r.roads_id) = false := by
    unfold isResidentialStreet
    rw [if_pos h0]
  refine ⟨hres, ?_, ?_⟩
  · show (isResidentialStreet thr r.roads_length (propCount ps pb r.roads_id) ||
      shortB shortThr r.roads_length) = shortB shortThr r.roads_length
    rw [hres, Bool.false_or]
  · intro hshort
    show (isResidentialStreet thr r.roads_length (propCount ps pb r.roads_id) ||
      shortB shortThr r.roads_length) = true
    rw [hres, Bool.false_or]
    exact hshort

/-- C9 witness: street 9 has zero residential properties and length 5,
below the short threshold 10, so it is non-residential yet
`short_or_residential`. -/
theorem C9_witness :
    s9.residential = false ∧
    shortOrResidentialOut 10 s9 = shortB 10 s9.length ∧
    shortOrResidentialOut 10 s9 = true := by
  have h := C9_zero_properties 30 10 psC9 pbC9 s9 (by decide) (by decide)
  exact ⟨h.1, h.2.1, h.2.2 (by decide)⟩

/-! ### C5: FaceBlock construction -/

/-- C5: at most one distinct street can match the target id (rows match by
id equality), construction fails with the integrity error when zero rows
match, fails whenever more than one distinct street matches (vacuously, as
that is impossible), and succeeds exactly when one distinct street matches. -/
theorem C5_faceblock_matches (df : List FBRow) (rid : Nat) :
    (fbUniqueIds df rid).length ≤ 1 ∧
    ((fbUniqueIds df rid).length = 0 → isOkE (faceBlockInit df rid) = false) ∧
    (1 < (fbUniqueIds df rid).length → isOkE (faceBlockInit df rid) = false) ∧
    (isOkE (faceBlockInit df rid) = true ↔ (fbUniqueIds df rid).length = 1) := by
  have hsub : fbUniqueIds df rid ⊆ [rid] := by
    intro x hx
    rw [fbUniqueIds, List.mem_dedup, List.mem_map] at hx
    obtain ⟨r, hr, rfl⟩ := hx
    rw [fbSlice, List.mem_filter, beq_iff_eq] at hr
    rw [hr.2]
    exact List.mem_singleton.mpr rfl
  have hle : (fbUniqueIds df rid).length ≤ 1 := by
    have h := List.Subperm.length_le
      (List.subperm_of_subset (List.nodup_dedup _) hsub)
    simpa using h
  have hok : isOkE (faceBlockInit df rid) = true ↔ fbSlice df rid ≠ [] := by
    unfold faceBlockInit
    split
    · next heq => simp [isOkE, heq]
    · next first rest heq => simp [isOkE, heq]
  have hempty : (fbUniqueIds df rid).length = 0 ↔ fbSlice df rid = [] := by
    rw [List.length_eq_zero, fbUniqueIds, List.dedup_eq_nil, List.map_eq_nil_iff]
  refine ⟨hle, ?_, ?_, ?_⟩
  · intro h0
    cases hval : isOkE (faceBlockInit df rid) with
    | false => rfl
    | true => exact absurd (hempty.mp h0) (hok.mp hval)
  · intro h1
    omega
  · constructor
    · intro hval
      have hne := hok.mp hval
      have h0 : (fbUniqueIds df rid).length ≠ 0 := fun h => hne (hempty.mp h)
      omega
    · intro h1
      refine hok.mpr (fun hnil => ?_)
      rw [hempty.mpr hnil] at h1
      exact absurd h1 (by omega)

/-- C5 witness: on a one-row table, construction succeeds for the matching
id 7 and fails for the unmatched id 9. -/
theorem C5_witness :
    isOkE (faceBlockInit dfC5 7) = true ∧ isOkE (faceBlockInit dfC5 9) = false :=
  ⟨(C5_faceblock_matches dfC5 7).2.2.2.mpr (by decide),
   (C5_faceblock_matches dfC5 9).2.1 (by decide)⟩

end Nbhd
